import Mathlib

/-!
Verification development for the module-graph crate of rolldown/js-ts-crates.

The definitions below are a shallow embedding of the Rust sources:

* crates/module-graph/src/module.rs            (data model, is_side_effect)
* crates/module-graph/src/js/visit_imports_exports.rs  (JS/TS extractor)
* crates/module-graph/src/json/mod.rs          (JsonModule::parse)
* crates/module-graph/src/module_graph.rs      (graph driver)

Machine integers (u32 ids, byte offsets) are modelled as Nat: none of the
verified properties involve wrap-around.  External collaborators (the oxc
parser AST, the resolver, the filesystem, serde_json values) are modelled
as explicit inductive data / function records, following how the source
uses their interfaces.
-/

namespace ModGraph

/-- AtomStr in the source is a cheaply clonable immutable string; modelled as String. -/
abbrev AtomStr := String

/-- Byte span (start, end) over the source text; oxc Span.  The Rust field
named end is called end_ here because end is a Lean keyword. -/
structure Span where
  start : Nat
  end_ : Nat
deriving DecidableEq, Repr

/-- SymbolId from oxc, an opaque binding id; modelled as Nat. -/
abbrev SymbolId := Nat

/-- ModuleId: u32 identifier, 0 is the unresolved sentinel. -/
abbrev ModuleId := Nat

/-- ImportedKind from module.rs. -/
inductive ImportedKind where
  | Default
  | DefaultType
  | Namespace
  | NamespaceType
  | Value
  | ValueType
deriving DecidableEq, Repr

/-- ImportedKind::is_default. -/
def ImportedKind.is_default : ImportedKind → Bool
  | .Default | .DefaultType => true
  | _ => false

/-- ImportedKind::is_namespace. -/
def ImportedKind.is_namespace : ImportedKind → Bool
  | .Namespace | .NamespaceType => true
  | _ => false

/-- ImportedKind::is_type. -/
def ImportedKind.is_type : ImportedKind → Bool
  | .DefaultType | .NamespaceType | .ValueType => true
  | _ => false

/-- ImportedSymbol from module.rs. -/
structure ImportedSymbol where
  kind : ImportedKind
  source_name : Option AtomStr
  symbol_id : Option SymbolId
  name : AtomStr
deriving DecidableEq, Repr

/-- BindingIdentifier from the oxc AST: a name plus an optional bound SymbolId. -/
structure BindingIdentifier where
  name : AtomStr
  symbol_id : Option SymbolId
deriving DecidableEq, Repr

/-- ImportedSymbol::from_binding. -/
def ImportedSymbol.from_binding (kind : ImportedKind) (binding : BindingIdentifier) :
    ImportedSymbol :=
  { kind := kind
    source_name := none
    symbol_id := binding.symbol_id
    name := binding.name }

/-- ImportKind from module.rs. -/
inductive ImportKind where
  | AsyncStatic
  | AsyncDynamic
  | SyncStatic
deriving DecidableEq, Repr

/-- Import from module.rs. -/
structure Import where
  kind : ImportKind
  module_id : ModuleId
  source_request : AtomStr
  span : Span
  symbols : List ImportedSymbol
  type_only : Bool
deriving DecidableEq, Repr

/-- Import::is_side_effect, exactly as in module.rs:
!self.source_request.is_empty() && self.symbols.is_empty(). -/
def Import.is_side_effect (i : Import) : Bool :=
  !i.source_request.isEmpty && i.symbols.isEmpty

/-- ExportedKind from module.rs. -/
inductive ExportedKind where
  | Default
  | DefaultType
  | Namespace
  | NamespaceType
  | Value
  | ValueType
deriving DecidableEq, Repr

/-- ExportedKind::is_default. -/
def ExportedKind.is_default : ExportedKind → Bool
  | .Default | .DefaultType => true
  | _ => false

/-- ExportedKind::is_type. -/
def ExportedKind.is_type : ExportedKind → Bool
  | .DefaultType | .NamespaceType | .ValueType => true
  | _ => false

/-- ExportedSymbol from module.rs. -/
structure ExportedSymbol where
  kind : ExportedKind
  symbol_id : Option SymbolId
  name : AtomStr
deriving DecidableEq, Repr

/-- ExportKind from module.rs. -/
inductive ExportKind where
  | Modern
  | Legacy
  | Native
deriving DecidableEq, Repr

/-- Export from module.rs. -/
structure Export where
  kind : ExportKind
  module_id : Option ModuleId
  source : Option AtomStr
  span : Option Span
  symbols : List ExportedSymbol
  type_only : Bool
deriving DecidableEq, Repr

/-- Concrete Import used to refute claim C1: an AsyncDynamic import with a
non-empty specifier and no symbols (a bare dynamic import expression, as
emitted by visit_import_expression). -/
def c1Import : Import :=
  { kind := .AsyncDynamic
    module_id := 0
    source_request := "./x"
    span := { start := 0, end_ := 12 }
    symbols := []
    type_only := false }

/-!
AST fragment of oxc used by visit_imports_exports.rs.  Only the shapes the
extractor actually inspects are represented; every uninspected expression
form is collapsed into otherExpr.
-/

mutual

/-- Expression subset of the oxc AST inspected by the extractor. -/
inductive Expression where
  | stringLit (value : AtomStr)
  | identifier (name : AtomStr)
  | numericLit (value : Nat)
  | awaitExpr (argument : Expression)
  | importExpr (source : Expression) (span : Span)
  | callExpr (callee : Expression) (arguments : List Argument) (span : Span)
  | otherExpr

/-- Argument of a call expression (oxc Argument): an expression or a spread. -/
inductive Argument where
  | expression (e : Expression)
  | spreadElement

end

/-- Expression::is_specific_id from oxc: true only for a plain identifier
with the given name. -/
def Expression.is_specific_id : Expression → String → Bool
  | .identifier n, s => decide (n = s)
  | _, _ => false

/-- PropertyKey from oxc: an identifier key, or any other key form together
with its optional static name (PropertyKey::name()). -/
inductive PropertyKey where
  | ident (name : AtomStr)
  | nonIdent (name : Option AtomStr)
deriving DecidableEq, Repr

/-- PropertyKey::is_specific_id: true only for an identifier key with the
given name. -/
def PropertyKey.is_specific_id : PropertyKey → String → Bool
  | .ident n, s => decide (n = s)
  | .nonIdent _, _ => false

/-- PropertyKey::name(). -/
def PropertyKey.name : PropertyKey → Option AtomStr
  | .ident n => some n
  | .nonIdent o => o

/-- BindingPatternKind from oxc.  The single-field wrappers BindingPattern
(around its kind), BindingProperty (key and value) and BindingRestElement
(argument) are flattened away: a property is a key paired with the kind of
its value pattern, a rest element is the kind of its argument pattern. -/
inductive BindingPatternKind where
  | bindingIdentifier (ident : BindingIdentifier)
  | objectPattern (properties : List (PropertyKey × BindingPatternKind))
      (rest : Option BindingPatternKind)
  | arrayPattern (elements : List (Option BindingPatternKind))
      (rest : Option BindingPatternKind)
  | assignmentPattern (left : BindingPatternKind)

/-- ImportOrExportKind from oxc (the statement-level or specifier-level
type marker).  The Rust variant named type is called type_ here. -/
inductive ImportOrExportKind where
  | value
  | type_
deriving DecidableEq, Repr

/-- ImportOrExportKind::is_type. -/
def ImportOrExportKind.is_type : ImportOrExportKind → Bool
  | .value => false
  | .type_ => true

/-- ImportSpecifier from oxc: imported is the source-side ModuleExportName
(its name()), local the bound identifier. -/
structure ImportSpecifierData where
  imported : AtomStr
  local_ : BindingIdentifier
  import_kind : ImportOrExportKind
deriving DecidableEq, Repr

/-- ImportDeclarationSpecifier from oxc. -/
inductive ImportDeclarationSpecifier where
  | importSpecifier (spec : ImportSpecifierData)
  | importDefaultSpecifier (local_ : BindingIdentifier)
  | importNamespaceSpecifier (local_ : BindingIdentifier)
deriving DecidableEq, Repr

/-- ImportDeclaration from oxc: the source is always a string literal
(its value is stored directly). -/
structure ImportDeclaration where
  span : Span
  source : AtomStr
  import_kind : ImportOrExportKind
  specifiers : Option (List ImportDeclarationSpecifier)
deriving DecidableEq, Repr

/-- TSModuleReference from oxc: an external module reference carries the
string literal of the require, anything else is collapsed. -/
inductive TSModuleReference where
  | externalModuleReference (expression : AtomStr)
  | nonExternal
deriving DecidableEq, Repr

/-- TSImportEqualsDeclaration from oxc. -/
structure TSImportEqualsDeclaration where
  span : Span
  id : BindingIdentifier
  import_kind : ImportOrExportKind
  module_reference : TSModuleReference
deriving DecidableEq, Repr

/-- ExportDefaultDeclarationKind from oxc, restricted to the arms matched in
visit_export_default_declaration; every other arm of the Rust match falls
into the wildcard which this model reaches through the expression forms that
are not identifiers.  The Bool on class/function records whether the oxc
is_typescript_syntax holds for that declaration (declare / bodyless form). -/
inductive ExportDefaultDeclarationKind where
  | classDeclaration (id : Option BindingIdentifier) (ts_syntax_flag : Bool)
  | functionDeclaration (id : Option BindingIdentifier) (ts_syntax_flag : Bool)
  | expression (e : Expression)
  | tsEnumDeclaration (id : BindingIdentifier)
  | tsInterfaceDeclaration (id : BindingIdentifier)

/-- ExportDefaultDeclarationKind::is_typescript_syntax (the Rust name ends in
a word this development cannot use for a Lean identifier): true for the TS
enum and interface declarations, and for class/function declarations whose
flag is set; plain expressions are not TypeScript-only syntax. -/
def ExportDefaultDeclarationKind.is_typescript_form :
    ExportDefaultDeclarationKind → Bool
  | .classDeclaration _ ts => ts
  | .functionDeclaration _ ts => ts
  | .expression _ => false
  | .tsEnumDeclaration _ => true
  | .tsInterfaceDeclaration _ => true

/-- ExportDefaultDeclaration from oxc. -/
structure ExportDefaultDeclaration where
  span : Span
  declaration : ExportDefaultDeclarationKind

/-!
The extractor: visit_imports_exports.rs.
-/

/-- extract_require_from_expression: a call expression whose callee is the
identifier require with exactly one argument.  Returns the callee, the
arguments and the span of the call. -/
def extract_require_from_expression :
    Expression → Option (Expression × List Argument × Span)
  | .callExpr callee arguments span =>
      if Expression.is_specific_id callee "require" ∧ arguments.length = 1 then
        some (callee, arguments, span)
      else
        none
  | _ => none

/-- extract_dynamic_import_from_expression: an await whose argument is a
dynamic-import expression.  Returns the requested source together with the
span of the dynamic-import expression. -/
def extract_dynamic_import_from_expression :
    Expression → Option (Expression × Span)
  | .awaitExpr (.importExpr source span) => some (source, span)
  | _ => none

/-- Body of the property loop in import_binding_pattern: the one symbol
pushed for an object-pattern property.  When the property value is not a
plain identifier the Rust code unwraps prop.key.name(); the claims never
reach a key without a name, so a missing name is modelled as the empty
string there. -/
def import_object_property_symbol (prop : PropertyKey × BindingPatternKind) :
    ImportedSymbol :=
  let kind := if PropertyKey.is_specific_id prop.1 "default" then
    ImportedKind.Default
  else
    ImportedKind.Value
  match prop.2 with
  | .bindingIdentifier ident =>
      { kind := kind
        source_name :=
          if PropertyKey.is_specific_id prop.1 ident.name then
            none
          else
            PropertyKey.name prop.1
        symbol_id := ident.symbol_id
        name := ident.name }
  | _ =>
      { kind := kind
        source_name := none
        symbol_id := none
        name := (PropertyKey.name prop.1).getD "" }

/-- import_binding_pattern from visit_imports_exports.rs: reduce a binding
pattern into imported symbols, appending to list. -/
def import_binding_pattern : BindingPatternKind → List ImportedSymbol → List ImportedSymbol
  | .bindingIdentifier ident, list =>
      list ++ [{ kind := .Namespace
                 source_name := none
                 symbol_id := ident.symbol_id
                 name := ident.name }]
  | .objectPattern properties rest, list =>
      let list := properties.foldl
        (fun acc prop => acc ++ [import_object_property_symbol prop]) list
      match rest with
      | some (.bindingIdentifier ident) =>
          list ++ [{ kind := .Namespace
                     source_name := none
                     symbol_id := none
                     name := ident.name }]
      | some _ => list
      | none => list
  | .arrayPattern _ _, list => list
  | .assignmentPattern left, list => import_binding_pattern left list

/-- Per-specifier body of the loop in visit_import_declaration for the
ImportSpecifier arm (named so the theorems can speak about one specifier). -/
def import_specifier_symbol (stmt_kind : ImportOrExportKind)
    (spec : ImportSpecifierData) : ImportedSymbol :=
  let value := ImportedSymbol.from_binding
    (if ImportOrExportKind.is_type stmt_kind ∨ ImportOrExportKind.is_type spec.import_kind then
      ImportedKind.ValueType
    else
      ImportedKind.Value)
    spec.local_
  let source_name := spec.imported
  if source_name = "default" then
    { value with kind := .Default }
  else if source_name ≠ value.name then
    { value with source_name := some source_name }
  else
    value

/-- Body of the specifier loop in visit_import_declaration: the one symbol
pushed for each ImportDeclarationSpecifier. -/
def import_declaration_symbol (stmt_kind : ImportOrExportKind) :
    ImportDeclarationSpecifier → ImportedSymbol
  | .importSpecifier s => import_specifier_symbol stmt_kind s
  | .importDefaultSpecifier l =>
      ImportedSymbol.from_binding
        (if ImportOrExportKind.is_type stmt_kind then
          ImportedKind.DefaultType
        else
          ImportedKind.Default) l
  | .importNamespaceSpecifier l =>
      ImportedSymbol.from_binding
        (if ImportOrExportKind.is_type stmt_kind then
          ImportedKind.NamespaceType
        else
          ImportedKind.Namespace) l

/-- visit_import_declaration from visit_imports_exports.rs: builds the one
Import record pushed for a static import statement; the specifier loop
pushes exactly one symbol per specifier, in order. -/
def visit_import_declaration (imp : ImportDeclaration) : Import :=
  let record : Import :=
    { kind := .AsyncStatic
      module_id := 0
      source_request := imp.source
      span := imp.span
      type_only := ImportOrExportKind.is_type imp.import_kind
      symbols := [] }
  match imp.specifiers with
  | none => record
  | some specifiers =>
      { record with
          symbols := specifiers.map (import_declaration_symbol imp.import_kind) }

/-- enter_node arm for TSImportEqualsDeclaration: import value = require(s).
Emits an Import only for an external module reference. -/
def enter_ts_import_equals (decl : TSImportEqualsDeclaration) : Option Import :=
  match decl.module_reference with
  | .externalModuleReference ext =>
      some { kind := .SyncStatic
             module_id := 0
             source_request := ext
             span := decl.span
             symbols := [{ kind := .Default
                           source_name := none
                           symbol_id := decl.id.symbol_id
                           name := decl.id.name }]
             type_only := ImportOrExportKind.is_type decl.import_kind }
  | .nonExternal => none

/-- visit_export_default_declaration from visit_imports_exports.rs.  The
Rust code returns early (emitting nothing) from the wildcard arm of the
match on the declaration; that early return is the none result here. -/
def visit_export_default_declaration (ex : ExportDefaultDeclaration) : Option Export :=
  let ts := ExportDefaultDeclarationKind.is_typescript_form ex.declaration
  let record : Export :=
    { kind := .Modern
      module_id := none
      source := none
      span := some ex.span
      symbols := []
      type_only := ts }
  let step : Option (Option BindingIdentifier × List ExportedSymbol) :=
    match ex.declaration with
    | .classDeclaration id _ => some (id, [])
    | .functionDeclaration id _ => some (id, [])
    | .expression (.identifier n) =>
        some (none, [{ kind := .Default, symbol_id := none, name := n }])
    | .tsEnumDeclaration id => some (some id, [])
    | .tsInterfaceDeclaration id => some (some id, [])
    | .expression _ => none
  match step with
  | none => none
  | some (ident, syms) =>
      let record := { record with symbols := syms }
      if record.symbols = [] then
        match ident with
        | some id =>
            some { record with
                     symbols := [{ kind := if ts then .DefaultType else .Default
                                   symbol_id := id.symbol_id
                                   name := id.name }] }
        | none =>
            some { record with
                     symbols := [{ kind := .Default
                                   symbol_id := none
                                   name := "default" }] }
      else
        some record

/-- Mutable state of the ExtractImportsExports visitor: the module record
lists together with the two span dedup sets (FxHashSet modelled as a list
consulted by membership) and the statement counters the handlers touch. -/
structure ExtractState where
  imports : List Import
  exports : List Export
  extracted_dynamic_imports : List Span
  extracted_requires : List Span
  require_count : Nat
  dynamic_import_count : Nat

/-- Fresh visitor state. -/
def initialExtractState : ExtractState :=
  { imports := []
    exports := []
    extracted_dynamic_imports := []
    extracted_requires := []
    require_count := 0
    dynamic_import_count := 0 }

/-- enter_node arm for CallExpression: require(s) as a call expression. -/
def enter_call_expression (st : ExtractState) (callee : Expression)
    (arguments : List Argument) (span : Span) : ExtractState :=
  if Expression.is_specific_id callee "require" ∧ arguments.length = 1 then
    match arguments with
    | [Argument.expression (Expression.stringLit source)] =>
        if span ∈ st.extracted_requires then st
        else
          { st with
              extracted_requires := span :: st.extracted_requires
              imports := st.imports ++
                [{ kind := .SyncStatic
                   module_id := 0
                   source_request := source
                   span := span
                   type_only := false
                   symbols := [] }]
              require_count := st.require_count + 1 }
    | _ => st
  else st

/-- First block of the VariableDeclarator arm: an initializer of the form
await import(s). -/
def variable_declarator_dynamic_part (st : ExtractState) (id : BindingPatternKind)
    (init : Expression) : ExtractState :=
  match extract_dynamic_import_from_expression init with
  | some (source, span) =>
      match source with
      | .stringLit sval =>
          if span ∈ st.extracted_dynamic_imports then st
          else
            { st with
                extracted_dynamic_imports := span :: st.extracted_dynamic_imports
                imports := st.imports ++
                  [{ kind := .AsyncDynamic
                     module_id := 0
                     source_request := sval
                     span := span
                     type_only := false
                     symbols := import_binding_pattern id [] }]
                dynamic_import_count := st.dynamic_import_count + 1 }
      | _ => st
  | none => st

/-- Second block of the VariableDeclarator arm: an initializer of the form
require(s). -/
def variable_declarator_require_part (st : ExtractState) (id : BindingPatternKind)
    (init : Expression) : ExtractState :=
  match extract_require_from_expression init with
  | some (_, arguments, span) =>
      match arguments with
      | [Argument.expression (Expression.stringLit sval)] =>
          if span ∈ st.extracted_requires then st
          else
            { st with
                extracted_requires := span :: st.extracted_requires
                imports := st.imports ++
                  [{ kind := .SyncStatic
                     module_id := 0
                     source_request := sval
                     span := span
                     type_only := false
                     symbols := import_binding_pattern id [] }]
                require_count := st.require_count + 1 }
      | _ => st
  | none => st

/-- enter_node arm for VariableDeclarator: initializers of the form
await import(s) and require(s), the two blocks run in sequence. -/
def enter_variable_declarator (st : ExtractState) (id : BindingPatternKind)
    (init : Option Expression) : ExtractState :=
  match init with
  | none => st
  | some init =>
      variable_declarator_require_part
        (variable_declarator_dynamic_part st id init) id init

/-- visit_import_expression: a bare import(s) expression. -/
def visit_import_expression (st : ExtractState) (source : Expression)
    (span : Span) : ExtractState :=
  match source with
  | .stringLit sval =>
      if span ∈ st.extracted_dynamic_imports then st
      else
        { st with
            extracted_dynamic_imports := span :: st.extracted_dynamic_imports
            imports := st.imports ++
              [{ kind := .AsyncDynamic
                 module_id := 0
                 source_request := sval
                 span := span
                 type_only := false
                 symbols := [] }]
            dynamic_import_count := st.dynamic_import_count + 1 }
  | _ => st

/-- One visit of an AST node by one of the three handlers emitting
dynamic-import and require records (the handlers that claim C4 names). -/
inductive VisitEvent where
  | callExpression (callee : Expression) (arguments : List Argument) (span : Span)
  | variableDeclarator (id : BindingPatternKind) (init : Option Expression)
  | importExpression (source : Expression) (span : Span)

/-- Dispatch one visit event to its handler. -/
def applyEvent (st : ExtractState) : VisitEvent → ExtractState
  | .callExpression c a s => enter_call_expression st c a s
  | .variableDeclarator i e => enter_variable_declarator st i e
  | .importExpression src s => visit_import_expression st src s

/-- Run a traversal, i.e. a sequence of visit events, over the state. -/
def runEvents (st : ExtractState) : List VisitEvent → ExtractState
  | [] => st
  | e :: rest => runEvents (applyEvent st e) rest

/-!
JsonModule (json/mod.rs).  The dynamic JSON value produced by the external
parser is modelled with object members as an insertion-ordered list of
key/value pairs, matching the iteration order of object.keys() used by
parse.
-/

/-- Dynamic JSON value (starbase_utils::json::JsonValue). -/
inductive JsonValue where
  | nullV
  | boolV (b : Bool)
  | numV (n : Int)
  | strV (s : String)
  | arrV (items : List JsonValue)
  | objV (entries : List (String × JsonValue))

/-- The single Export built by JsonModule::parse: first the whole document
as a Default symbol named default, then, when the root is an object, one
Value symbol per direct key in insertion order. -/
def json_export (data : JsonValue) : Export :=
  { kind := .Native
    module_id := none
    source := none
    span := none
    type_only := false
    symbols :=
      { kind := ExportedKind.Default, symbol_id := none, name := "default" } ::
        (match data with
          | .objV entries =>
              entries.map (fun kv =>
                { kind := ExportedKind.Value, symbol_id := none, name := kv.1 })
          | _ => []) }

/-- JsonModule::parse: pushes exactly one Export onto module.exports. -/
def json_module_parse (data : JsonValue) (exports : List Export) : List Export :=
  exports ++ [json_export data]

/-!
Graph driver (module_graph.rs).  The resolver, the filesystem and the
source handlers are the external collaborators of the driver; they are
collected in a Host record of pure functions.  The recursion of
load_module / load_module_at_path is made total with a fuel parameter;
running out of fuel is reported by a dedicated error that a real execution
never produces when the fuel exceeds the recursion depth.  Every operation
returns the updated ModuleGraph state next to the result, matching the
mutation of &mut self in the Rust code (mutations performed before an
error are retained).
-/

/-- PackageJson manifest: the fields the driver reads. -/
structure PackageJson where
  name : Option String
  realpath : String
deriving DecidableEq, Repr

/-- Resolution result (oxc_resolver Resolution as consumed by load_module):
a cleaned absolute path, optional query and fragment, and the optional
package.json that was found. -/
structure ResolvedPath where
  path : String
  query : Option String
  fragment : Option String
  package_json : Option PackageJson
deriving DecidableEq, Repr

/-- The import and export records produced for one file by
Module::load_and_parse_source (extension dispatch, file read and parse are
behind this interface). -/
structure ModuleFile where
  imports : List Import
  exports : List Export
deriving DecidableEq, Repr

/-- External collaborators of the driver: resolver, file loading/parsing,
manifest reading, and path utilities.  A none result models the collaborator
returning an error. -/
structure Host where
  resolve : String → String → Option ResolvedPath
  load_and_parse : String → Option ModuleFile
  read_package_json : String → Option PackageJson
  parent_dir : String → String
  is_absolute : String → Bool

/-- Module from module.rs as stored in the graph (the source handler box is
not represented: no verified property reads it). -/
structure Module where
  exports : List Export
  fragment : Option String
  id : ModuleId
  imports : List Import
  package_name : Option String
  path : String
  query : Option String
deriving DecidableEq, Repr

/-- ModuleGraphEdge from module_graph.rs. -/
inductive ModuleGraphEdge where
  | importEdge
  | exportEdge
deriving DecidableEq, Repr

/-- petgraph GraphMap over ModuleIds: node list plus at most one directed
edge (with its label) per ordered pair of nodes. -/
structure ModuleGraphType where
  nodes : List ModuleId
  edges : List (ModuleId × ModuleId × ModuleGraphEdge)
deriving DecidableEq, Repr

/-- GraphMap::add_node: inserts the node when absent. -/
def addNode (g : ModuleGraphType) (n : ModuleId) : ModuleGraphType :=
  if n ∈ g.nodes then g else { g with nodes := g.nodes ++ [n] }

/-- GraphMap::add_edge: inserts both endpoints, then either replaces the
label of the existing edge between them or appends a new edge. -/
def addEdge (g : ModuleGraphType) (a b : ModuleId) (w : ModuleGraphEdge) :
    ModuleGraphType :=
  let g := addNode (addNode g a) b
  if g.edges.any (fun e => decide (e.1 = a ∧ e.2.1 = b)) then
    { g with edges := g.edges.map (fun e => if e.1 = a ∧ e.2.1 = b then (a, b, w) else e) }
  else
    { g with edges := g.edges ++ [(a, b, w)] }

/-- Association-list lookup; FxHashMap::get and IndexMap::get.  Entries are
only ever inserted for keys that are absent, so an insertion is a cons for
the hash maps and an append for the insertion-ordered modules map. -/
def alookup {α β : Type} [DecidableEq α] : List (α × β) → α → Option β
  | [], _ => none
  | (k, v) :: rest, a => if a = k then some v else alookup rest a

/-- ModuleGraph from module_graph.rs (the resolver configuration lives in
the Host and is not part of the mutable state). -/
structure ModuleGraph where
  graph : ModuleGraphType
  modules : List (ModuleId × Module)
  packages : List (String × PackageJson)
  next_id : Nat
  paths_to_ids : List (String × ModuleId)
deriving DecidableEq, Repr

/-- ModuleGraph::new: empty graph, next_id starts at 1 (0 is the sentinel). -/
def ModuleGraph.new : ModuleGraph :=
  { graph := { nodes := [], edges := [] }
    modules := []
    packages := []
    next_id := 1
    paths_to_ids := [] }

/-- Driver errors (module_graph_error.rs), plus the fuel-exhaustion artifact
of the embedding and the assertion failure of the absolute-path assert. -/
inductive ModuleGraphError where
  | resolveFailed (dir : String) (specifier : String)
  | loadFailed (path : String)
  | packageJsonError (path : String)
  | assertNotAbsolute (path : String)
  | fuelExhausted
deriving DecidableEq, Repr

/-- ModuleGraph::load_package_json: intern PackageJson values by path. -/
def load_package_json (host : Host) (st : ModuleGraph) (path : String) :
    Except ModuleGraphError PackageJson × ModuleGraph :=
  match alookup st.packages path with
  | some json => (.ok json, st)
  | none =>
      match host.read_package_json path with
      | none => (.error (.packageJsonError path), st)
      | some json => (.ok json, { st with packages := (path, json) :: st.packages })

/-- The package.json step at the top of load_module_at_path: when a manifest
was resolved, intern it through load_package_json. -/
def load_package_json_opt (host : Host) (st : ModuleGraph)
    (package_json : Option PackageJson) :
    Except ModuleGraphError (Option PackageJson) × ModuleGraph :=
  match package_json with
  | some json =>
      match load_package_json host st json.realpath with
      | (.ok p, st') => (.ok (some p), st')
      | (.error e, st') => (.error e, st')
  | none => (.ok none, st)

/-- A pending driver call: ModuleGraph::load_module (resolve a specifier
against a parent directory) or ModuleGraph::load_module_at_path. -/
inductive LoadRequest where
  | bySpec (parent_dir : String) (specifier : String)
  | byPath (path : String) (query : Option String) (fragment : Option String)
      (package_json : Option PackageJson)

/-- The import loop of load_module_at_path: for each import, load the
requested module, store its id on the record, and add an Import edge.  The
load argument is the recursive load_module call. -/
def processImports
    (load : ModuleGraph → String → String → Except ModuleGraphError ModuleId × ModuleGraph)
    (parent_dir : String) (mid : ModuleId) :
    ModuleGraph → List Import → Except ModuleGraphError (List Import) × ModuleGraph
  | st, [] => (.ok [], st)
  | st, imp :: rest =>
      match load st parent_dir imp.source_request with
      | (.error e, st') => (.error e, st')
      | (.ok dep, st') =>
          match processImports load parent_dir mid
              { st' with graph := addEdge st'.graph mid dep .importEdge } rest with
          | (.error e, st'') => (.error e, st'')
          | (.ok rest', st'') => (.ok ({ imp with module_id := dep } :: rest'), st'')

/-- The export loop of load_module_at_path: exports without a source are
kept as they are; for each re-export, load the source module, store its id,
and add an Export edge. -/
def processExports
    (load : ModuleGraph → String → String → Except ModuleGraphError ModuleId × ModuleGraph)
    (parent_dir : String) (mid : ModuleId) :
    ModuleGraph → List Export → Except ModuleGraphError (List Export) × ModuleGraph
  | st, [] => (.ok [], st)
  | st, ex :: rest =>
      match ex.source with
      | none =>
          match processExports load parent_dir mid st rest with
          | (.error e, st') => (.error e, st')
          | (.ok rest', st') => (.ok (ex :: rest'), st')
      | some src =>
          match load st parent_dir src with
          | (.error e, st') => (.error e, st')
          | (.ok dep, st') =>
              match processExports load parent_dir mid
                  { st' with graph := addEdge st'.graph mid dep .exportEdge } rest with
              | (.error e, st'') => (.error e, st'')
              | (.ok rest', st'') => (.ok ({ ex with module_id := some dep } :: rest'), st'')

/-- The mutually recursive pair load_module / load_module_at_path, driven by
fuel.  The byPath body follows module_graph.rs lines 86-151 step by step:
the absolute-path assert, the paths_to_ids lookup, the package.json
interning, the id allocation with registration before any recursion, the
load-and-parse of the file, the import and export loops, and the final
insertion into the modules map. -/
def loadAux (host : Host) : Nat → ModuleGraph → LoadRequest →
    Except ModuleGraphError ModuleId × ModuleGraph
  | 0, st, _ => (.error .fuelExhausted, st)
  | fuel + 1, st, .bySpec parent_dir specifier =>
      match host.resolve parent_dir specifier with
      | none => (.error (.resolveFailed parent_dir specifier), st)
      | some r =>
          loadAux host fuel st (.byPath r.path r.query r.fragment r.package_json)
  | fuel + 1, st, .byPath path query fragment package_json =>
      if host.is_absolute path then
        match alookup st.paths_to_ids path with
        | some module_id => (.ok module_id, st)
        | none =>
            match load_package_json_opt host st package_json with
            | (.error e, st1) => (.error e, st1)
            | (.ok pkg, st1) =>
                let module_id := st1.next_id
                let st2 := { st1 with
                  graph := addNode st1.graph module_id
                  next_id := st1.next_id + 1
                  paths_to_ids := (path, module_id) :: st1.paths_to_ids }
                match host.load_and_parse path with
                | none => (.error (.loadFailed path), st2)
                | some file =>
                    let parent_dir := host.parent_dir path
                    match processImports
                        (fun s d sp => loadAux host fuel s (.bySpec d sp))
                        parent_dir module_id st2 file.imports with
                    | (.error e, st3) => (.error e, st3)
                    | (.ok imports', st3) =>
                        match processExports
                            (fun s d sp => loadAux host fuel s (.bySpec d sp))
                            parent_dir module_id st3 file.exports with
                        | (.error e, st4) => (.error e, st4)
                        | (.ok exports', st4) =>
                            let m : Module :=
                              { exports := exports'
                                fragment := fragment
                                id := module_id
                                imports := imports'
                                package_name := pkg.bind (fun p => p.name)
                                path := path
                                query := query }
                            (.ok module_id,
                              { st4 with modules := st4.modules ++ [(module_id, m)] })
      else
        (.error (.assertNotAbsolute path), st)

/-- ModuleGraph::load_module. -/
def load_module (host : Host) (fuel : Nat) (st : ModuleGraph)
    (parent_dir specifier : String) :
    Except ModuleGraphError ModuleId × ModuleGraph :=
  loadAux host fuel st (.bySpec parent_dir specifier)

/-- ModuleGraph::load_module_at_path. -/
def load_module_at_path (host : Host) (fuel : Nat) (st : ModuleGraph)
    (path : String) (query fragment : Option String)
    (package_json : Option PackageJson) :
    Except ModuleGraphError ModuleId × ModuleGraph :=
  loadAux host fuel st (.byPath path query fragment package_json)

/-!
Concrete fixtures for the counterexamples, scenario theorems and witnesses.
-/

/-- Import record extracted from the file a.ts of the cycle fixture, the
statement importing ./b there. -/
def importOfB : Import :=
  { kind := .AsyncStatic
    module_id := 0
    source_request := "./b"
    span := { start := 0, end_ := 12 }
    symbols := []
    type_only := false }

/-- Import record extracted from the file b.ts of the cycle fixture, the
statement importing ./a there. -/
def importOfA : Import :=
  { kind := .AsyncStatic
    module_id := 0
    source_request := "./a"
    span := { start := 0, end_ := 12 }
    symbols := []
    type_only := false }

/-- Host for the two-file import cycle: /a.ts imports ./b and /b.ts imports
./a, both specifiers resolving inside the root directory. -/
def cycHost : Host :=
  { resolve := fun dir spec =>
      if dir = "/" ∧ spec = "./a" then
        some { path := "/a.ts", query := none, fragment := none, package_json := none }
      else if dir = "/" ∧ spec = "./b" then
        some { path := "/b.ts", query := none, fragment := none, package_json := none }
      else none
    load_and_parse := fun p =>
      if p = "/a.ts" then some { imports := [importOfB], exports := [] }
      else if p = "/b.ts" then some { imports := [importOfA], exports := [] }
      else none
    read_package_json := fun _ => none
    parent_dir := fun _ => "/"
    is_absolute := fun p => decide (p = "/a.ts" ∨ p = "/b.ts") }

/-- Host whose only file /a.ts exists as a path but fails to load (file read
or parse error inside load_and_parse_source). -/
def failHost : Host :=
  { resolve := fun _ _ => none
    load_and_parse := fun _ => none
    read_package_json := fun _ => none
    parent_dir := fun _ => "/"
    is_absolute := fun p => decide (p = "/a.ts") }

/-- Graph state that already contains /a.ts under id 1. -/
def c9State : ModuleGraph :=
  { ModuleGraph.new with paths_to_ids := [("/a.ts", 1)] }

/-- State left behind by loading /a.ts through failHost: the id was
allocated and registered, the load failed, no module was installed. -/
def c10FinalState : ModuleGraph :=
  { graph := { nodes := [1], edges := [] }
    modules := []
    packages := []
    next_id := 2
    paths_to_ids := [("/a.ts", 1)] }

/-- The statement import type \x7b default as D \x7d from ./x: a type-only
statement whose one specifier imports the name default. -/
def c3Decl : ImportDeclaration :=
  { span := { start := 0, end_ := 40 }
    source := "./x"
    import_kind := .type_
    specifiers := some [.importSpecifier
      { imported := "default"
        local_ := { name := "D", symbol_id := none }
        import_kind := .value }] }

/-- The statement import type \x7b A \x7d from ./x. -/
def c3WitnessDecl : ImportDeclaration :=
  { span := { start := 0, end_ := 30 }
    source := "./x"
    import_kind := .type_
    specifiers := some [.importSpecifier
      { imported := "A"
        local_ := { name := "A", symbol_id := none }
        import_kind := .value }] }

/-- The statement import \x7b default as D \x7d from ./x: a renamed
specifier whose imported name is default. -/
def c5Decl : ImportDeclaration :=
  { span := { start := 0, end_ := 35 }
    source := "./x"
    import_kind := .value
    specifiers := some [.importSpecifier
      { imported := "default"
        local_ := { name := "D", symbol_id := none }
        import_kind := .value }] }

/-- The statement import \x7b type Foo as Bar \x7d from ./x (scenario S2). -/
def s2Decl : ImportDeclaration :=
  { span := { start := 0, end_ := 40 }
    source := "./x"
    import_kind := .value
    specifiers := some [.importSpecifier
      { imported := "Foo"
        local_ := { name := "Bar", symbol_id := some 7 }
        import_kind := .type_ }] }

/-- export default 42: a defaulted expression that is neither a declaration
nor a bare identifier. -/
def c7BadInput : ExportDefaultDeclaration :=
  { span := { start := 0, end_ := 18 }
    declaration := .expression (.numericLit 42) }

/-- The Default symbol named default that heads every JSON export. -/
def json_default_symbol : ExportedSymbol :=
  { kind := ExportedKind.Default, symbol_id := none, name := "default" }

/-- Number of AsyncDynamic import records with the given span. -/
def countDyn (st : ExtractState) (s : Span) : Nat :=
  st.imports.countP (fun i => decide (i.kind = ImportKind.AsyncDynamic ∧ i.span = s))

/-- Number of SyncStatic import records with the given span. -/
def countReq (st : ExtractState) (s : Span) : Nat :=
  st.imports.countP (fun i => decide (i.kind = ImportKind.SyncStatic ∧ i.span = s))

/-- Invariant tying the dedup sets to the emitted records: a span outside a
set has no record of the corresponding kind, and every span has at most one
record of each deduplicated kind. -/
def DedupInv (st : ExtractState) : Prop :=
  ∀ s : Span,
    (s ∉ st.extracted_dynamic_imports → countDyn st s = 0) ∧
    countDyn st s ≤ 1 ∧
    (s ∉ st.extracted_requires → countReq st s = 0) ∧
    countReq st s ≤ 1

/-- How one driver step may change the graph state: registered paths keep
their ids, next_id never decreases, every new key in the modules map is at
least the old next_id, and graph nodes are never removed. -/
structure Evolves (st st' : ModuleGraph) : Prop where
  paths : ∀ p v, alookup st.paths_to_ids p = some v → alookup st'.paths_to_ids p = some v
  next_le : st.next_id ≤ st'.next_id
  modules_new : ∀ k : ModuleId, (alookup st'.modules k).isSome = true →
    (alookup st.modules k).isSome = true ∨ st.next_id ≤ k
  nodes : ∀ n, n ∈ st.graph.nodes → n ∈ st'.graph.nodes

/-!
Theorems.  First the claims about the data model and the extractor, then
the invariants of the graph driver.
-/

/-- C1 counterexample: the claim says is_side_effect requires kind
AsyncStatic, but the code never consults the kind: a bare dynamic import
(kind AsyncDynamic, non-empty specifier, no symbols) already satisfies
is_side_effect, refuting the stated equivalence at this input. -/
theorem c1_counterexample :
    ¬ (c1Import.is_side_effect = true ↔
      (c1Import.source_request ≠ "" ∧ c1Import.symbols = [] ∧
        c1Import.kind = ImportKind.AsyncStatic)) := by
  decide

/-- C1 amended: is_side_effect holds exactly when the source request is
non-empty and the symbol list is empty; the import kind plays no role. -/
theorem c1_amended_theorem (i : Import) :
    i.is_side_effect = true ↔ (i.source_request ≠ "" ∧ i.symbols = []) := by
  simp [Import.is_side_effect, List.isEmpty_iff, Bool.not_eq_true',
    Bool.eq_false_iff, String.isEmpty_iff]

/-- The type_only flag of the record built by visit_import_declaration is
the type marker of the statement-level import kind. -/
theorem visit_import_declaration_type_only (imp : ImportDeclaration) :
    (visit_import_declaration imp).type_only =
      ImportOrExportKind.is_type imp.import_kind := by
  unfold visit_import_declaration
  cases imp.specifiers <;> rfl

/-- The symbols of the record built by visit_import_declaration: one symbol
per specifier, none when the specifier list is absent. -/
theorem visit_import_declaration_symbols (imp : ImportDeclaration) :
    (visit_import_declaration imp).symbols =
      match imp.specifiers with
      | none => []
      | some specifiers => specifiers.map (import_declaration_symbol imp.import_kind) := by
  unfold visit_import_declaration
  cases imp.specifiers <;> rfl

/-- C3 counterexample: for import type with a specifier whose imported name
is default, the statement is type-only but the kind of the emitted symbol is
promoted to Default, whose is_type is false; the claimed invariant fails. -/
theorem c3_counterexample :
    (visit_import_declaration c3Decl).type_only = true ∧
    (visit_import_declaration c3Decl).symbols.all
      (fun s => ImportedKind.is_type s.kind) = false := by
  decide

/-- C3 amended: on a type-only import statement every emitted symbol either
has a type kind or was promoted to Default because its imported name is the
literal default; the import-equals record always carries a Default symbol
regardless of its type_only flag. -/
theorem c3_amended_theorem :
    (∀ decl : ImportDeclaration, (visit_import_declaration decl).type_only = true →
      ∀ s ∈ (visit_import_declaration decl).symbols,
        ImportedKind.is_type s.kind = true ∨ s.kind = ImportedKind.Default) ∧
    (∀ d : TSImportEqualsDeclaration, ∀ i : Import, enter_ts_import_equals d = some i →
      ∀ s ∈ i.symbols, s.kind = ImportedKind.Default) := by
  constructor
  · intro decl htype s hs
    rw [visit_import_declaration_type_only] at htype
    rw [visit_import_declaration_symbols] at hs
    cases hspec : decl.specifiers with
    | none => rw [hspec] at hs; simp at hs
    | some specifiers =>
        rw [hspec] at hs
        obtain ⟨spec, _, rfl⟩ := List.mem_map.mp hs
        cases spec with
        | importSpecifier s0 =>
            simp only [import_declaration_symbol, import_specifier_symbol,
              ImportedSymbol.from_binding, htype]
            by_cases hd : s0.imported = "default"
            · simp [hd]
            · simp only [hd, if_false, if_neg hd]
              split <;> simp [ImportedKind.is_type]
        | importDefaultSpecifier l =>
            simp [import_declaration_symbol, ImportedSymbol.from_binding, htype,
              ImportedKind.is_type]
        | importNamespaceSpecifier l =>
            simp [import_declaration_symbol, ImportedSymbol.from_binding, htype,
              ImportedKind.is_type]
  · intro d i hi s hs
    unfold enter_ts_import_equals at hi
    cases hmr : d.module_reference with
    | externalModuleReference ext =>
        rw [hmr] at hi
        cases hi
        simp at hs
        rw [hs]
    | nonExternal => rw [hmr] at hi; cases hi

/-- C3 witness: instantiation of the amended invariant at a type-only
statement importing the name A. -/
theorem c3_witness :
    ImportedKind.is_type
        ({ kind := ImportedKind.ValueType, source_name := none, symbol_id := none,
           name := "A" : ImportedSymbol }).kind = true ∨
    ({ kind := ImportedKind.ValueType, source_name := none, symbol_id := none,
       name := "A" : ImportedSymbol }).kind = ImportedKind.Default :=
  c3_amended_theorem.1 c3WitnessDecl (by decide) _ (by decide)

/-- C5 counterexample: for the statement import \x7b default as D \x7d the
imported name default differs from the local name D, so the claim requires
source_name = some "default"; the code promotes the kind to Default and, in
the same else-if chain, leaves source_name absent. -/
theorem c5_counterexample :
    (visit_import_declaration c5Decl).symbols =
      [{ kind := ImportedKind.Default, source_name := none, symbol_id := none,
         name := "D" }] ∧
    ¬ (visit_import_declaration c5Decl).symbols.map ImportedSymbol.source_name =
      [some "default"] := by
  decide

/-- C5 amended: when the imported name is the literal default, the kind is
promoted to Default and source_name stays absent (the rename rule is in the
same else-if chain and is skipped); otherwise a renamed specifier records
source_name = some imported with the local name, and a non-renamed one
leaves source_name absent.  The scenario statement import \x7b type Foo as
Bar \x7d (S2) produces exactly the claimed record. -/
theorem c5_amended_theorem (stmt_kind : ImportOrExportKind) (spec : ImportSpecifierData) :
    (spec.imported = "default" →
      import_specifier_symbol stmt_kind spec =
        { kind := ImportedKind.Default, source_name := none,
          symbol_id := spec.local_.symbol_id, name := spec.local_.name }) ∧
    (spec.imported ≠ "default" → spec.imported ≠ spec.local_.name →
      (import_specifier_symbol stmt_kind spec).source_name = some spec.imported ∧
      (import_specifier_symbol stmt_kind spec).name = spec.local_.name) ∧
    (spec.imported ≠ "default" → spec.imported = spec.local_.name →
      (import_specifier_symbol stmt_kind spec).source_name = none) ∧
    visit_import_declaration s2Decl =
      { kind := ImportKind.AsyncStatic, module_id := 0, source_request := "./x",
        span := { start := 0, end_ := 40 },
        symbols := [{ kind := ImportedKind.ValueType, source_name := some "Foo",
                      symbol_id := some 7, name := "Bar" }],
        type_only := false } := by
  refine ⟨?_, ?_, ?_, by decide⟩
  · intro hd
    simp [import_specifier_symbol, ImportedSymbol.from_binding, hd]
  · intro hd hr
    simp [import_specifier_symbol, ImportedSymbol.from_binding, hd, hr]
  · intro hd hr
    rw [hr] at hd
    simp [import_specifier_symbol, ImportedSymbol.from_binding, hr, hd]

/-- C5 witness: the rename rule applied to import \x7b Foo as Bar \x7d. -/
theorem c5_witness :
    (import_specifier_symbol .value
        { imported := "Foo", local_ := { name := "Bar", symbol_id := none },
          import_kind := .type_ }).source_name = some "Foo" ∧
    (import_specifier_symbol .value
        { imported := "Foo", local_ := { name := "Bar", symbol_id := none },
          import_kind := .type_ }).name = "Bar" :=
  (c5_amended_theorem .value
    { imported := "Foo", local_ := { name := "Bar", symbol_id := none },
      import_kind := .type_ }).2.1 (by decide) (by decide)

/-- C7 counterexample: export default 42 reaches the wildcard arm of the
match in visit_export_default_declaration, which returns early: no Export
record is emitted, while the claim requires one with the symbol default. -/
theorem c7_counterexample :
    visit_export_default_declaration c7BadInput = none := by
  rfl

/-- C7 amended: a record is emitted only for defaulted class/function
declarations (named or anonymous), bare identifier expressions, TS enums
and TS interfaces; the name is the declaration id, the identifier, or
default for the anonymous forms, the kind is DefaultType exactly for named
TypeScript-syntax declarations, and every other defaulted expression
produces no record at all. -/
theorem c7_amended_theorem :
    (∀ (sp : Span) (id : BindingIdentifier) (ts : Bool),
      visit_export_default_declaration { span := sp, declaration := .classDeclaration (some id) ts } =
        some { kind := .Modern, module_id := none, source := none, span := some sp,
               symbols := [{ kind := if ts then .DefaultType else .Default,
                             symbol_id := id.symbol_id, name := id.name }],
               type_only := ts }) ∧
    (∀ (sp : Span) (ts : Bool),
      visit_export_default_declaration { span := sp, declaration := .classDeclaration none ts } =
        some { kind := .Modern, module_id := none, source := none, span := some sp,
               symbols := [{ kind := .Default, symbol_id := none, name := "default" }],
               type_only := ts }) ∧
    (∀ (sp : Span) (id : BindingIdentifier) (ts : Bool),
      visit_export_default_declaration { span := sp, declaration := .functionDeclaration (some id) ts } =
        some { kind := .Modern, module_id := none, source := none, span := some sp,
               symbols := [{ kind := if ts then .DefaultType else .Default,
                             symbol_id := id.symbol_id, name := id.name }],
               type_only := ts }) ∧
    (∀ (sp : Span) (ts : Bool),
      visit_export_default_declaration { span := sp, declaration := .functionDeclaration none ts } =
        some { kind := .Modern, module_id := none, source := none, span := some sp,
               symbols := [{ kind := .Default, symbol_id := none, name := "default" }],
               type_only := ts }) ∧
    (∀ (sp : Span) (n : AtomStr),
      visit_export_default_declaration { span := sp, declaration := .expression (.identifier n) } =
        some { kind := .Modern, module_id := none, source := none, span := some sp,
               symbols := [{ kind := .Default, symbol_id := none, name := n }],
               type_only := false }) ∧
    (∀ (sp : Span) (id : BindingIdentifier),
      visit_export_default_declaration { span := sp, declaration := .tsEnumDeclaration id } =
        some { kind := .Modern, module_id := none, source := none, span := some sp,
               symbols := [{ kind := .DefaultType, symbol_id := id.symbol_id, name := id.name }],
               type_only := true }) ∧
    (∀ (sp : Span) (id : BindingIdentifier),
      visit_export_default_declaration { span := sp, declaration := .tsInterfaceDeclaration id } =
        some { kind := .Modern, module_id := none, source := none, span := some sp,
               symbols := [{ kind := .DefaultType, symbol_id := id.symbol_id, name := id.name }],
               type_only := true }) ∧
    (∀ (sp : Span) (e : Expression), (∀ n, e ≠ .identifier n) →
      visit_export_default_declaration { span := sp, declaration := .expression e } = none) := by
  refine ⟨fun sp id ts => ?_, fun sp ts => rfl, fun sp id ts => ?_, fun sp ts => rfl,
    fun sp n => rfl, fun sp id => rfl, fun sp id => rfl, fun sp e h => ?_⟩
  · cases ts <;> rfl
  · cases ts <;> rfl
  · cases e with
    | identifier n => exact absurd rfl (h n)
    | stringLit v => rfl
    | numericLit v => rfl
    | awaitExpr a => rfl
    | importExpr s x => rfl
    | callExpr c a x => rfl
    | otherExpr => rfl

/-- C7 witness: the no-record case of the amended claim at export default 7. -/
theorem c7_witness :
    visit_export_default_declaration
      { span := { start := 0, end_ := 18 }, declaration := .expression (.numericLit 7) } = none :=
  c7_amended_theorem.2.2.2.2.2.2.2 { start := 0, end_ := 18 } (.numericLit 7)
    (fun _ h => Expression.noConfusion h)

/-- C8: JsonModule::parse pushes exactly one Native export whose first
symbol is Default named default; an object root appends one Value symbol
per direct key, in insertion order; every other root adds nothing. -/
theorem c8_theorem :
    (∀ (data : JsonValue) (exports : List Export),
      json_module_parse data exports = exports ++ [json_export data]) ∧
    (∀ data : JsonValue, (json_export data).kind = ExportKind.Native) ∧
    (∀ data : JsonValue, (json_export data).symbols.head? = some json_default_symbol) ∧
    (∀ entries : List (String × JsonValue),
      (json_export (.objV entries)).symbols =
        json_default_symbol ::
          entries.map (fun kv =>
            { kind := ExportedKind.Value, symbol_id := none, name := kv.1 })) ∧
    (json_export .nullV).symbols = [json_default_symbol] ∧
    (∀ b, (json_export (.boolV b)).symbols = [json_default_symbol]) ∧
    (∀ n, (json_export (.numV n)).symbols = [json_default_symbol]) ∧
    (∀ s, (json_export (.strV s)).symbols = [json_default_symbol]) ∧
    (∀ items, (json_export (.arrV items)).symbols = [json_default_symbol]) := by
  exact ⟨fun _ _ => rfl, fun _ => rfl, fun _ => rfl, fun _ => rfl, rfl,
    fun _ => rfl, fun _ => rfl, fun _ => rfl, fun _ => rfl⟩

/-- countP of a list extended by one element. -/
theorem countP_append_singleton {α : Type} (p : α → Bool) (l : List α) (x : α) :
    (l ++ [x]).countP p = l.countP p + (if p x then 1 else 0) := by
  simp [List.countP_append, List.countP_cons]

/-- Pushing a fresh AsyncDynamic record whose span just entered the dynamic
dedup set preserves the dedup invariant. -/
theorem dedupInv_push_dyn (st : ExtractState) (rec : Import)
    (hk : rec.kind = ImportKind.AsyncDynamic)
    (hmem : rec.span ∉ st.extracted_dynamic_imports) (hinv : DedupInv st) :
    DedupInv { st with
      extracted_dynamic_imports := rec.span :: st.extracted_dynamic_imports
      imports := st.imports ++ [rec]
      dynamic_import_count := st.dynamic_import_count + 1 } := by
  intro s
  obtain ⟨hd0, hd1, hr0, hr1⟩ := hinv s
  by_cases hsp : rec.span = s
  · subst hsp
    refine ⟨fun hnm => absurd (List.mem_cons_self _ _) hnm, ?_, fun hnm => ?_, ?_⟩
    · have h0 : countDyn st rec.span = 0 := hd0 hmem
      unfold countDyn at h0 ⊢
      rw [countP_append_singleton, h0]
      simp [hk]
    · have h0 : countReq st rec.span = 0 := hr0 hnm
      unfold countReq at h0 ⊢
      rw [countP_append_singleton, h0]
      simp [hk]
    · unfold countReq at hr1 ⊢
      rw [countP_append_singleton]
      simpa [hk] using hr1
  · refine ⟨fun hnm => ?_, ?_, fun hnm => ?_, ?_⟩
    · have hnm' : s ∉ st.extracted_dynamic_imports := by
        intro hc
        exact hnm (List.mem_cons_of_mem _ hc)
      have h0 := hd0 hnm'
      unfold countDyn at h0 ⊢
      rw [countP_append_singleton, h0]
      simp [hsp]
    · unfold countDyn at hd1 ⊢
      rw [countP_append_singleton]
      simpa [hsp] using hd1
    · have h0 := hr0 hnm
      unfold countReq at h0 ⊢
      rw [countP_append_singleton, h0]
      simp [hk]
    · unfold countReq at hr1 ⊢
      rw [countP_append_singleton]
      simpa [hk] using hr1

/-- Pushing a fresh SyncStatic record whose span just entered the require
dedup set preserves the dedup invariant. -/
theorem dedupInv_push_req (st : ExtractState) (rec : Import)
    (hk : rec.kind = ImportKind.SyncStatic)
    (hmem : rec.span ∉ st.extracted_requires) (hinv : DedupInv st) :
    DedupInv { st with
      extracted_requires := rec.span :: st.extracted_requires
      imports := st.imports ++ [rec]
      require_count := st.require_count + 1 } := by
  intro s
  obtain ⟨hd0, hd1, hr0, hr1⟩ := hinv s
  by_cases hsp : rec.span = s
  · subst hsp
    refine ⟨fun hnm => ?_, ?_, fun hnm => absurd (List.mem_cons_self _ _) hnm, ?_⟩
    · have h0 : countDyn st rec.span = 0 := hd0 hnm
      unfold countDyn at h0 ⊢
      rw [countP_append_singleton, h0]
      simp [hk]
    · unfold countDyn at hd1 ⊢
      rw [countP_append_singleton]
      simpa [hk] using hd1
    · have h0 : countReq st rec.span = 0 := hr0 hmem
      unfold countReq at h0 ⊢
      rw [countP_append_singleton, h0]
      simp [hk]
  · refine ⟨fun hnm => ?_, ?_, fun hnm => ?_, ?_⟩
    · have h0 := hd0 hnm
      unfold countDyn at h0 ⊢
      rw [countP_append_singleton, h0]
      simp [hk]
    · unfold countDyn at hd1 ⊢
      rw [countP_append_singleton]
      simpa [hk] using hd1
    · have hnm' : s ∉ st.extracted_requires := by
        intro hc
        exact hnm (List.mem_cons_of_mem _ hc)
      have h0 := hr0 hnm'
      unfold countReq at h0 ⊢
      rw [countP_append_singleton, h0]
      simp [hsp]
    · unfold countReq at hr1 ⊢
      rw [countP_append_singleton]
      simpa [hsp] using hr1

/-- enter_call_expression preserves the dedup invariant. -/
theorem dedupInv_call_expression (st : ExtractState) (callee : Expression)
    (arguments : List Argument) (span : Span) (h : DedupInv st) :
    DedupInv (enter_call_expression st callee arguments span) := by
  unfold enter_call_expression
  split
  · split
    · split
      · exact h
      · exact dedupInv_push_req st _ rfl (by assumption) h
    · exact h
  · exact h

/-- variable_declarator_dynamic_part preserves the dedup invariant. -/
theorem dedupInv_dynamic_part (st : ExtractState) (id : BindingPatternKind)
    (init : Expression) (h : DedupInv st) :
    DedupInv (variable_declarator_dynamic_part st id init) := by
  unfold variable_declarator_dynamic_part
  split
  · split
    · split
      · exact h
      · exact dedupInv_push_dyn st _ rfl (by assumption) h
    · exact h
  · exact h

/-- variable_declarator_require_part preserves the dedup invariant. -/
theorem dedupInv_require_part (st : ExtractState) (id : BindingPatternKind)
    (init : Expression) (h : DedupInv st) :
    DedupInv (variable_declarator_require_part st id init) := by
  unfold variable_declarator_require_part
  split
  · split
    · split
      · exact h
      · exact dedupInv_push_req st _ rfl (by assumption) h
    · exact h
  · exact h

/-- visit_import_expression preserves the dedup invariant. -/
theorem dedupInv_import_expression (st : ExtractState) (source : Expression)
    (span : Span) (h : DedupInv st) :
    DedupInv (visit_import_expression st source span) := by
  unfold visit_import_expression
  split
  · split
    · exact h
    · exact dedupInv_push_dyn st _ rfl (by assumption) h
  · exact h

/-- Every visit event preserves the dedup invariant. -/
theorem dedupInv_applyEvent (st : ExtractState) (e : VisitEvent) (h : DedupInv st) :
    DedupInv (applyEvent st e) := by
  cases e with
  | callExpression c a s => exact dedupInv_call_expression st c a s h
  | variableDeclarator i o =>
      cases o with
      | none => exact h
      | some init =>
          exact dedupInv_require_part _ i init (dedupInv_dynamic_part st i init h)
  | importExpression src s => exact dedupInv_import_expression st src s h

/-- The dedup invariant holds along any traversal. -/
theorem dedupInv_runEvents :
    ∀ (events : List VisitEvent) (st : ExtractState),
      DedupInv st → DedupInv (runEvents st events) := by
  intro events
  induction events with
  | nil => intro st h; exact h
  | cons e rest ih => intro st h; exact ih _ (dedupInv_applyEvent st e h)

/-- The fresh visitor state satisfies the dedup invariant. -/
theorem dedupInv_initial : DedupInv initialExtractState := by
  intro s
  refine ⟨fun _ => rfl, ?_, fun _ => rfl, ?_⟩ <;>
    simp [countDyn, countReq, initialExtractState]

/-- C4: along any traversal by the call-expression, variable-declarator
and dynamic-import handlers, every span carries at most one AsyncDynamic
record and at most one SyncStatic record, however often the same call is
revisited: the dedup sets guarantee it. -/
theorem c4_theorem (events : List VisitEvent) (s : Span) :
    countDyn (runEvents initialExtractState events) s ≤ 1 ∧
    countReq (runEvents initialExtractState events) s ≤ 1 := by
  have h := dedupInv_runEvents events initialExtractState dedupInv_initial s
  exact ⟨h.2.1, h.2.2.2⟩

/-- Folding an append-one-element body equals appending the map. -/
theorem foldl_append_singleton {α β : Type} (g : β → α) :
    ∀ (l : List β) (acc : List α),
      l.foldl (fun a b => a ++ [g b]) acc = acc ++ l.map g := by
  intro l
  induction l with
  | nil => intro acc; simp
  | cons x xs ih => intro acc; simp [ih]

/-- C6: a declarator whose initializer is await import of a string literal
emits exactly one AsyncDynamic record with the symbols of the binding
pattern, and the nested import() expression, revisited at the same span, is
deduplicated; on an object pattern with identifier keys and identifier
values the symbols are Default for the key default, Value otherwise with
source_name recorded exactly for renamed properties, and a rest element
adds one Namespace symbol. -/
theorem c6_theorem (id : BindingPatternKind) (source : AtomStr) (span : Span)
    (props : List (AtomStr × BindingIdentifier)) (rest : Option BindingIdentifier) :
    (runEvents initialExtractState
        [.variableDeclarator id (some (.awaitExpr (.importExpr (.stringLit source) span))),
         .importExpression (.stringLit source) span]).imports =
      [{ kind := .AsyncDynamic, module_id := 0, source_request := source, span := span,
         symbols := import_binding_pattern id [], type_only := false }] ∧
    import_binding_pattern
        (.objectPattern
          (props.map (fun p => (PropertyKey.ident p.1, .bindingIdentifier p.2)))
          (rest.map (fun r => .bindingIdentifier r))) [] =
      props.map (fun p =>
        { kind := if p.1 = "default" then ImportedKind.Default else ImportedKind.Value
          source_name := if p.1 = p.2.name then none else some p.1
          symbol_id := p.2.symbol_id
          name := p.2.name }) ++
      (match rest with
        | some r => [{ kind := ImportedKind.Namespace, source_name := none,
                       symbol_id := none, name := r.name }]
        | none => []) := by
  constructor
  · simp [runEvents, applyEvent, enter_variable_declarator,
      variable_declarator_dynamic_part, variable_declarator_require_part,
      extract_dynamic_import_from_expression, extract_require_from_expression,
      visit_import_expression, initialExtractState]
  · simp only [import_binding_pattern]
    rw [foldl_append_singleton]
    rw [List.map_map]
    have hmap : ∀ p : AtomStr × BindingIdentifier,
        (import_object_property_symbol ∘
          fun p => (PropertyKey.ident p.1, BindingPatternKind.bindingIdentifier p.2)) p =
        { kind := if p.1 = "default" then ImportedKind.Default else ImportedKind.Value
          source_name := if p.1 = p.2.name then none else some p.1
          symbol_id := p.2.symbol_id
          name := p.2.name } := by
      intro p
      simp [import_object_property_symbol, PropertyKey.is_specific_id, PropertyKey.name]
    rw [funext hmap]
    cases rest with
    | none => simp
    | some r => simp

/-!
Driver lemmas: association lists, graph membership, the package.json step,
and the Evolves relation along the recursion.
-/

/-- Lookup of a freshly consed binding. -/
theorem alookup_cons_self {α β : Type} [DecidableEq α] (l : List (α × β)) (k : α) (v : β) :
    alookup ((k, v) :: l) k = some v := by
  simp [alookup]

/-- Lookup skips a consed binding with a different key. -/
theorem alookup_cons_ne {α β : Type} [DecidableEq α] (l : List (α × β)) (k a : α) (v : β)
    (h : a ≠ k) : alookup ((k, v) :: l) a = alookup l a := by
  simp [alookup, h]

/-- Lookup distributes over an append: the left list wins. -/
theorem alookup_append {α β : Type} [DecidableEq α] (l₁ l₂ : List (α × β)) (a : α) :
    alookup (l₁ ++ l₂) a =
      match alookup l₁ a with
      | some v => some v
      | none => alookup l₂ a := by
  induction l₁ with
  | nil => simp [alookup]
  | cons kv rest ih =>
      by_cases h : a = kv.1
      · simp [alookup, h]
      · simp [alookup, h, ih]

/-- add_node puts its node in the graph. -/
theorem mem_addNode_self (g : ModuleGraphType) (n : ModuleId) :
    n ∈ (addNode g n).nodes := by
  unfold addNode
  split
  · assumption
  · simp

/-- add_node keeps every existing node. -/
theorem mem_addNode_of_mem (g : ModuleGraphType) (n m : ModuleId) (h : m ∈ g.nodes) :
    m ∈ (addNode g n).nodes := by
  unfold addNode
  split
  · exact h
  · simp [h]

/-- add_edge keeps every existing node. -/
theorem mem_addEdge_of_mem (g : ModuleGraphType) (a b m : ModuleId) (w : ModuleGraphEdge)
    (h : m ∈ g.nodes) : m ∈ (addEdge g a b w).nodes := by
  simp only [addEdge]
  have h' : m ∈ (addNode (addNode g a) b).nodes :=
    mem_addNode_of_mem _ _ _ (mem_addNode_of_mem _ _ _ h)
  split <;> exact h'

/-- load_package_json only touches the packages map. -/
theorem load_package_json_fields (host : Host) (st : ModuleGraph) (path : String) :
    ((load_package_json host st path).2).graph = st.graph ∧
    ((load_package_json host st path).2).modules = st.modules ∧
    ((load_package_json host st path).2).next_id = st.next_id ∧
    ((load_package_json host st path).2).paths_to_ids = st.paths_to_ids := by
  unfold load_package_json
  split
  · exact ⟨rfl, rfl, rfl, rfl⟩
  · split <;> exact ⟨rfl, rfl, rfl, rfl⟩

/-- The package.json step only touches the packages map. -/
theorem load_package_json_opt_fields (host : Host) (st : ModuleGraph)
    (pk : Option PackageJson) :
    ((load_package_json_opt host st pk).2).graph = st.graph ∧
    ((load_package_json_opt host st pk).2).modules = st.modules ∧
    ((load_package_json_opt host st pk).2).next_id = st.next_id ∧
    ((load_package_json_opt host st pk).2).paths_to_ids = st.paths_to_ids := by
  cases pk with
  | none => exact ⟨rfl, rfl, rfl, rfl⟩
  | some json =>
      have h := load_package_json_fields host st json.realpath
      rcases hlp : load_package_json host st json.realpath with ⟨r, st1⟩
      rw [hlp] at h
      cases r with
      | ok p => simp only [load_package_json_opt, hlp]; exact h
      | error e => simp only [load_package_json_opt, hlp]; exact h

/-- Evolves is reflexive. -/
theorem Evolves.rfl (st : ModuleGraph) : Evolves st st :=
  ⟨fun _ _ h => h, Nat.le_refl _, fun _ h => Or.inl h, fun _ h => h⟩

/-- Evolves is transitive. -/
theorem Evolves.trans {a b c : ModuleGraph} (h1 : Evolves a b) (h2 : Evolves b c) :
    Evolves a c := by
  refine ⟨fun p v h => h2.paths p v (h1.paths p v h),
    Nat.le_trans h1.next_le h2.next_le, fun k h => ?_,
    fun n h => h2.nodes n (h1.nodes n h)⟩
  rcases h2.modules_new k h with hb | hle
  · exact h1.modules_new k hb
  · exact Or.inr (Nat.le_trans h1.next_le hle)

/-- A state with unchanged paths, next_id, modules and graph evolves from
the original (only the packages map may differ). -/
theorem evolves_of_fields {st st' : ModuleGraph}
    (h1 : st'.paths_to_ids = st.paths_to_ids) (h2 : st'.next_id = st.next_id)
    (h3 : st'.modules = st.modules) (h4 : st'.graph = st.graph) :
    Evolves st st' :=
  ⟨fun p v h => by rw [h1]; exact h, by rw [h2],
   fun k h => by rw [h3] at h; exact Or.inl h, fun n h => by rw [h4]; exact h⟩

/-- Adding an edge only grows the graph. -/
theorem evolves_addEdge (st : ModuleGraph) (a b : ModuleId) (w : ModuleGraphEdge) :
    Evolves st { st with graph := addEdge st.graph a b w } :=
  ⟨fun _ _ h => h, Nat.le_refl _, fun _ h => Or.inl h,
   fun _ h => mem_addEdge_of_mem _ _ _ _ _ h⟩

/-- Allocating and registering a fresh id evolves the state. -/
theorem evolves_alloc (st1 : ModuleGraph) (path : String)
    (hnone : alookup st1.paths_to_ids path = none) :
    Evolves st1 { st1 with
      graph := addNode st1.graph st1.next_id
      next_id := st1.next_id + 1
      paths_to_ids := (path, st1.next_id) :: st1.paths_to_ids } := by
  refine ⟨fun p v h => ?_, Nat.le_succ _, fun k h => Or.inl h,
    fun n h => mem_addNode_of_mem _ _ _ h⟩
  by_cases hp : p = path
  · rw [hp, hnone] at h; cases h
  · simpa [alookup, hp] using h

/-- The import loop evolves the state whenever its load function does. -/
theorem processImports_evolves
    (load : ModuleGraph → String → String → Except ModuleGraphError ModuleId × ModuleGraph)
    (parent_dir : String) (mid : ModuleId)
    (hl : ∀ s d sp, Evolves s (load s d sp).2) :
    ∀ (l : List Import) (st : ModuleGraph),
      Evolves st (processImports load parent_dir mid st l).2 := by
  intro l
  induction l with
  | nil => intro st; exact Evolves.rfl st
  | cons imp rest ih =>
      intro st
      simp only [processImports]
      split
      · next e st' heq =>
          have h1 := hl st parent_dir imp.source_request
          rw [heq] at h1
          exact h1
      · next dep st' heq =>
          have h1 := hl st parent_dir imp.source_request
          rw [heq] at h1
          have h2 := evolves_addEdge st' mid dep .importEdge
          have h3 := ih { st' with graph := addEdge st'.graph mid dep .importEdge }
          split
          · next e st'' heq2 =>
              rw [heq2] at h3
              exact (h1.trans h2).trans h3
          · next rest' st'' heq2 =>
              rw [heq2] at h3
              exact (h1.trans h2).trans h3

/-- The export loop evolves the state whenever its load function does. -/
theorem processExports_evolves
    (load : ModuleGraph → String → String → Except ModuleGraphError ModuleId × ModuleGraph)
    (parent_dir : String) (mid : ModuleId)
    (hl : ∀ s d sp, Evolves s (load s d sp).2) :
    ∀ (l : List Export) (st : ModuleGraph),
      Evolves st (processExports load parent_dir mid st l).2 := by
  intro l
  induction l with
  | nil => intro st; exact Evolves.rfl st
  | cons ex rest ih =>
      intro st
      simp only [processExports]
      split
      · -- no source: recurse directly
        have h3 := ih st
        split
        · next e st' heq2 => rw [heq2] at h3; exact h3
        · next rest' st' heq2 => rw [heq2] at h3; exact h3
      · next src hsrc =>
          split
          · next e st' heq =>
              have h1 := hl st parent_dir src
              rw [heq] at h1
              exact h1
          · next dep st' heq =>
              have h1 := hl st parent_dir src
              rw [heq] at h1
              have h2 := evolves_addEdge st' mid dep .exportEdge
              have h3 := ih { st' with graph := addEdge st'.graph mid dep .exportEdge }
              split
              · next e st'' heq2 =>
                  rw [heq2] at h3
                  exact (h1.trans h2).trans h3
              · next rest' st'' heq2 =>
                  rw [heq2] at h3
                  exact (h1.trans h2).trans h3

/-- Equation form of processImports_evolves. -/
theorem processImports_evolves_of_eq
    {load : ModuleGraph → String → String → Except ModuleGraphError ModuleId × ModuleGraph}
    {parent_dir : String} {mid : ModuleId} {l : List Import} {st st' : ModuleGraph}
    {r : Except ModuleGraphError (List Import)}
    (hl : ∀ s d sp, Evolves s (load s d sp).2)
    (heq : processImports load parent_dir mid st l = (r, st')) : Evolves st st' := by
  have h := processImports_evolves load parent_dir mid hl l st
  rw [heq] at h
  exact h

/-- Equation form of processExports_evolves. -/
theorem processExports_evolves_of_eq
    {load : ModuleGraph → String → String → Except ModuleGraphError ModuleId × ModuleGraph}
    {parent_dir : String} {mid : ModuleId} {l : List Export} {st st' : ModuleGraph}
    {r : Except ModuleGraphError (List Export)}
    (hl : ∀ s d sp, Evolves s (load s d sp).2)
    (heq : processExports load parent_dir mid st l = (r, st')) : Evolves st st' := by
  have h := processExports_evolves load parent_dir mid hl l st
  rw [heq] at h
  exact h

/-- Every driver call evolves the state: registered paths and graph nodes
survive, next_id grows, new modules-map keys are at least the old next_id. -/
theorem loadAux_evolves (host : Host) :
    ∀ (fuel : Nat) (req : LoadRequest) (st : ModuleGraph),
      Evolves st (loadAux host fuel st req).2 := by
  intro fuel
  induction fuel with
  | zero => intro req st; exact Evolves.rfl st
  | succ fuel ih =>
      intro req st
      cases req with
      | bySpec pd sp =>
          simp only [loadAux]
          split
          · exact Evolves.rfl st
          · exact ih _ st
      | byPath path q f pk =>
          have hl : ∀ s d sp, Evolves s (loadAux host fuel s (.bySpec d sp)).2 :=
            fun s d sp => ih (.bySpec d sp) s
          simp only [loadAux]
          split
          · -- absolute path
            split
            · exact Evolves.rfl st
            · next hlk =>
                split
                · next e st1 hpkg =>
                    have hf := load_package_json_opt_fields host st pk
                    rw [hpkg] at hf
                    exact evolves_of_fields hf.2.2.2 hf.2.2.1 hf.2.1 hf.1
                · next pkg st1 hpkg =>
                    have hf := load_package_json_opt_fields host st pk
                    rw [hpkg] at hf
                    have hE1 : Evolves st st1 :=
                      evolves_of_fields hf.2.2.2 hf.2.2.1 hf.2.1 hf.1
                    have hnone1 : alookup st1.paths_to_ids path = none := by
                      rw [hf.2.2.2]; exact hlk
                    have hE2 := evolves_alloc st1 path hnone1
                    split
                    · -- load_and_parse failed
                      exact hE1.trans hE2
                    · next file hlp =>
                        split
                        · next e st3 hpi =>
                            exact (hE1.trans hE2).trans
                              (processImports_evolves_of_eq hl hpi)
                        · next imports' st3 hpi =>
                            have hE3 := processImports_evolves_of_eq hl hpi
                            split
                            · next e st4 hpe =>
                                exact ((hE1.trans hE2).trans hE3).trans
                                  (processExports_evolves_of_eq hl hpe)
                            · next exports' st4 hpe =>
                                have hE4 := processExports_evolves_of_eq hl hpe
                                have hE : Evolves st st4 :=
                                  ((hE1.trans hE2).trans hE3).trans hE4
                                refine ⟨hE.paths, hE.next_le, fun k hk => ?_, hE.nodes⟩
                                rw [alookup_append] at hk
                                cases hkk : alookup st4.modules k with
                                | some m => rw [hkk] at hk; exact hE.modules_new k (by rw [hkk]; rfl)
                                | none =>
                                    rw [hkk] at hk
                                    by_cases hke : k = st1.next_id
                                    · rw [hke, hf.2.2.1]
                                      exact Or.inr (Nat.le_refl _)
                                    · rw [alookup_cons_ne _ _ _ _ hke] at hk
                                      simp [alookup] at hk
          · exact Evolves.rfl st

/-- A byPath load with the path already registered is a pure lookup: it
returns the registered id and leaves the whole state untouched. -/
theorem loadAux_lookup_hit (host : Host) (fuel : Nat) (st : ModuleGraph)
    (p : String) (q f : Option String) (pk : Option PackageJson) (mid : ModuleId)
    (habs : host.is_absolute p = true)
    (hlk : alookup st.paths_to_ids p = some mid) :
    loadAux host (fuel + 1) st (.byPath p q f pk) = (.ok mid, st) := by
  simp only [loadAux]
  rw [if_pos habs, hlk]

/-- A successful byPath load passed the absolute-path assert. -/
theorem loadAux_path_ok_absolute {host : Host} {fuel : Nat} {st : ModuleGraph}
    {path : String} {q f : Option String} {pk : Option PackageJson}
    {id : ModuleId} {st' : ModuleGraph}
    (h : loadAux host fuel st (.byPath path q f pk) = (.ok id, st')) :
    host.is_absolute path = true := by
  cases fuel with
  | zero => simp [loadAux] at h
  | succ fuel =>
      by_cases habs : host.is_absolute path = true
      · exact habs
      · simp [loadAux, habs] at h

/-- A successful byPath load leaves the path registered under the returned
id. -/
theorem loadAux_path_ok_registered {host : Host} {fuel : Nat} {st : ModuleGraph}
    {path : String} {q f : Option String} {pk : Option PackageJson}
    {id : ModuleId} {st' : ModuleGraph}
    (h : loadAux host fuel st (.byPath path q f pk) = (.ok id, st')) :
    alookup st'.paths_to_ids path = some id := by
  cases fuel with
  | zero => simp [loadAux] at h
  | succ fuel =>
      have habs := loadAux_path_ok_absolute h
      have hl : ∀ s d sp, Evolves s (loadAux host fuel s (.bySpec d sp)).2 :=
        fun s d sp => loadAux_evolves host fuel (.bySpec d sp) s
      simp only [loadAux] at h
      rw [if_pos habs] at h
      split at h
      · next mid hlk =>
          injection h with h1 h2
          injection h1 with h1
          subst h2
          rw [h1] at hlk
          exact hlk
      · next hlk =>
          split at h
          · next e st1 hpkg => simp at h
          · next pkg st1 hpkg =>
              split at h
              · next hlp => simp at h
              · next file hlp =>
                  split at h
                  · next e st3 hpi => simp at h
                  · next imports' st3 hpi =>
                      split at h
                      · next e st4 hpe => simp at h
                      · next exports' st4 hpe =>
                          injection h with h1 h2
                          injection h1 with h1
                          subst h2
                          have hE3 := processImports_evolves_of_eq hl hpi
                          have hE4 := processExports_evolves_of_eq hl hpe
                          have hreg : alookup
                              ({ st1 with
                                 graph := addNode st1.graph st1.next_id
                                 next_id := st1.next_id + 1
                                 paths_to_ids :=
                                   (path, st1.next_id) :: st1.paths_to_ids }).paths_to_ids
                              path = some st1.next_id := by
                            simp [alookup]
                          have h4 := hE4.paths path st1.next_id
                            (hE3.paths path st1.next_id hreg)
                          rw [← h1]
                          exact h4

/-- C2: a second load_module_at_path call on the state left by a successful
first call, with the same canonical path and arbitrary further
query, fragment and manifest, returns the same id and leaves the state
untouched; and the two-file cyclic fixture a imports b imports a terminates
with exactly one id per file (ids 1 and 2). -/
theorem c2_theorem :
    (∀ (host : Host) (fuel fuel' : Nat) (st : ModuleGraph) (p : String)
        (q f q' f' : Option String) (pk pk' : Option PackageJson)
        (id : ModuleId) (st' : ModuleGraph),
      load_module_at_path host fuel st p q f pk = (.ok id, st') →
      load_module_at_path host (fuel' + 1) st' p q' f' pk' = (.ok id, st')) ∧
    (load_module cycHost 10 ModuleGraph.new "/" "./a").1 = .ok 1 ∧
    (load_module cycHost 10 ModuleGraph.new "/" "./a").2.paths_to_ids =
      [("/b.ts", 2), ("/a.ts", 1)] := by
  refine ⟨?_, rfl, rfl⟩
  intro host fuel fuel' st p q f q' f' pk pk' id st' h
  have h' : loadAux host fuel st (.byPath p q f pk) = (.ok id, st') := h
  have habs := loadAux_path_ok_absolute h'
  have hreg := loadAux_path_ok_registered h'
  exact loadAux_lookup_hit host fuel' st' p q' f' pk' id habs hreg

/-- C2 witness: after loading /a.ts in the cyclic fixture, a second call on
the same path returns id 1 with the state unchanged. -/
theorem c2_witness :
    load_module_at_path cycHost 1
        (load_module_at_path cycHost 10 ModuleGraph.new "/a.ts" none none none).2
        "/a.ts" none none none =
      (.ok 1, (load_module_at_path cycHost 10 ModuleGraph.new "/a.ts" none none none).2) := by
  have h1 : (load_module_at_path cycHost 10 ModuleGraph.new "/a.ts" none none none).1 =
      Except.ok 1 := rfl
  exact c2_theorem.1 cycHost 10 0 ModuleGraph.new "/a.ts" none none none none none none 1
    (load_module_at_path cycHost 10 ModuleGraph.new "/a.ts" none none none).2
    (by rw [← h1])

/-- C9: loading a path already present in paths_to_ids returns the existing
id immediately and leaves the graph, modules, packages and next_id exactly
as they were; the host is arbitrary, so no file is read and nothing is
parsed. -/
theorem c9_theorem (host : Host) (fuel : Nat) (st : ModuleGraph) (p : String)
    (q f : Option String) (pk : Option PackageJson) (mid : ModuleId)
    (habs : host.is_absolute p = true)
    (hlk : alookup st.paths_to_ids p = some mid) :
    load_module_at_path host (fuel + 1) st p q f pk = (.ok mid, st) :=
  loadAux_lookup_hit host fuel st p q f pk mid habs hlk

/-- C9 witness: re-loading /a.ts on a state that already maps it to id 1
returns (ok 1) and the very same state. -/
theorem c9_witness :
    load_module_at_path failHost 1 c9State "/a.ts" none none none = (.ok 1, c9State) :=
  c9_theorem failHost 0 c9State "/a.ts" none none none 1 (by decide) (by decide)

/-- Conclusions shared by every failure after the id allocation: the fresh
id stays registered for the path and as a graph node, and the modules map
has no entry for it. -/
theorem post_alloc_failure {st1 stX : ModuleGraph} {p : String}
    (hE : Evolves { st1 with
      graph := addNode st1.graph st1.next_id
      next_id := st1.next_id + 1
      paths_to_ids := (p, st1.next_id) :: st1.paths_to_ids } stX)
    (hmods : ∀ k : ModuleId, (alookup st1.modules k).isSome = true → k < st1.next_id) :
    alookup stX.paths_to_ids p = some st1.next_id ∧
    st1.next_id ∈ stX.graph.nodes ∧
    alookup stX.modules st1.next_id = none := by
  refine ⟨hE.paths p st1.next_id (by simp [alookup]), ?_, ?_⟩
  · exact hE.nodes st1.next_id (mem_addNode_self _ _)
  · cases hmk : alookup stX.modules st1.next_id with
    | none => rfl
    | some m =>
        rcases hE.modules_new st1.next_id (by rw [hmk]; rfl) with hb | hle
        · exact absurd (hmods _ hb) (Nat.lt_irrefl _)
        · have hle' : st1.next_id + 1 ≤ st1.next_id := hle
          omega

/-- C10: when load_module_at_path has allocated and registered a fresh id
(path not yet registered, manifest step succeeded) and then fails, the
error propagates while the id stays in paths_to_ids and as a graph node,
the modules map never receives an entry for it, and a subsequent load of
the path is a pure lookup returning that id. -/
theorem c10_theorem (host : Host) (fuel : Nat) (st : ModuleGraph) (p : String)
    (q f : Option String) (pk pv : Option PackageJson) (st1 : ModuleGraph)
    (e : ModuleGraphError) (st' : ModuleGraph)
    (habs : host.is_absolute p = true)
    (hlk : alookup st.paths_to_ids p = none)
    (hpkg : load_package_json_opt host st pk = (.ok pv, st1))
    (hwf : ∀ k : ModuleId, (alookup st.modules k).isSome = true → k < st.next_id)
    (h : load_module_at_path host (fuel + 1) st p q f pk = (.error e, st')) :
    alookup st'.paths_to_ids p = some st.next_id ∧
    st.next_id ∈ st'.graph.nodes ∧
    alookup st'.modules st.next_id = none ∧
    (∀ (fuel' : Nat) (q' f' : Option String) (pk' : Option PackageJson),
      load_module_at_path host (fuel' + 1) st' p q' f' pk' = (.ok st.next_id, st')) := by
  have hf := load_package_json_opt_fields host st pk
  rw [hpkg] at hf
  have hmods1 : ∀ k : ModuleId, (alookup st1.modules k).isSome = true → k < st1.next_id := by
    intro k hk
    rw [hf.2.1] at hk
    rw [hf.2.2.1]
    exact hwf k hk
  have hl : ∀ s d sp, Evolves s (loadAux host fuel s (.bySpec d sp)).2 :=
    fun s d sp => loadAux_evolves host fuel (.bySpec d sp) s
  have h' : loadAux host (fuel + 1) st (.byPath p q f pk) = (.error e, st') := h
  simp only [loadAux] at h'
  rw [if_pos habs] at h'
  have hmain :
      alookup st'.paths_to_ids p = some st1.next_id ∧
      st1.next_id ∈ st'.graph.nodes ∧
      alookup st'.modules st1.next_id = none := by
    split at h'
    · next mid hlk2 => rw [hlk] at hlk2; cases hlk2
    · next hlk2 =>
        split at h'
        · next e2 st1' hpkg2 =>
            rw [hpkg] at hpkg2
            simp at hpkg2
        · next pkg st1' hpkg2 =>
            rw [hpkg] at hpkg2
            injection hpkg2 with ha hb
            injection ha with ha
            subst hb
            split at h'
            · next hlp =>
                injection h' with h1 h2
                subst h2
                exact post_alloc_failure (Evolves.rfl _) hmods1
            · next file hlp =>
                split at h'
                · next e2 st3 hpi =>
                    injection h' with h1 h2
                    subst h2
                    exact post_alloc_failure (processImports_evolves_of_eq hl hpi) hmods1
                · next imports' st3 hpi =>
                    split at h'
                    · next e2 st4 hpe =>
                        injection h' with h1 h2
                        subst h2
                        exact post_alloc_failure
                          ((processImports_evolves_of_eq hl hpi).trans
                            (processExports_evolves_of_eq hl hpe)) hmods1
                    · next exports' st4 hpe =>
                        injection h' with h1 h2
                        injection h1
  rw [hf.2.2.1] at hmain
  refine ⟨hmain.1, hmain.2.1, hmain.2.2, fun fuel' q' f' pk' => ?_⟩
  exact loadAux_lookup_hit host fuel' st' p q' f' pk' st.next_id habs hmain.1

/-- C10 witness: loading /a.ts through failHost allocates id 1, fails with
loadFailed, leaves the id registered with no module entry, and a subsequent
load returns id 1 as a pure lookup. -/
theorem c10_witness :
    alookup c10FinalState.paths_to_ids "/a.ts" = some 1 ∧
    1 ∈ c10FinalState.graph.nodes ∧
    alookup c10FinalState.modules 1 = none ∧
    load_module_at_path failHost 1 c10FinalState "/a.ts" none none none =
      (.ok 1, c10FinalState) := by
  have h := c10_theorem failHost 4 ModuleGraph.new "/a.ts" none none none none
    ModuleGraph.new (.loadFailed "/a.ts") c10FinalState (by decide) (by decide) rfl
    (by intro k hk; simp [ModuleGraph.new, alookup] at hk) rfl
  exact ⟨h.1, h.2.1, h.2.2.1, h.2.2.2 0 none none none⟩

end ModGraph

